import Mathlib

/-!
Verification of the DDPM variance scheduler and sampling module
(`2d_plot_diffusion_todo/ddpm.py`).

Modelling conventions:
* Tensor entries are real numbers; a batched data tensor of shape
  `(B, d1, ..., dk)` is modelled as a function `B → ι → ℝ` where `B` is the
  batch index type and `ι` the (flattened) index type of the non-batch
  dimensions.
* A timestep argument (scalar, shape `[1]`, or batched) is modelled as a
  per-batch-element function `B → ℕ`; a scalar / length-1 tensor broadcast
  over the batch corresponds to a constant function.
* Randomness (`torch.randn`, `torch.randn_like`, `torch.randint`) is
  modelled by passing the sampled values as explicit oracle arguments.
* Schedule buffers are lists of reals built exactly as the constructor
  builds them; `torch.gather` on a 1-D buffer is `List.getD`.
* Shape/broadcast semantics are modelled separately by a shape calculus on
  `List ℕ` following the numpy/torch broadcasting rules.
-/

namespace DDPM

/-- Value at index `i` of `torch.linspace a b steps`:
`a + i * (b - a) / (steps - 1)` (for `steps = 1` the only entry is `a`;
in that case the division by zero yields `0` in the real model, matching). -/
noncomputable def linspaceVal (a b : ℝ) (steps i : ℕ) : ℝ :=
  a + i * (b - a) / ((steps - 1 : ℕ) : ℝ)

/-- `betas[i]` in mode `"linear"`: `torch.linspace beta_1 beta_T num_train_timesteps`. -/
noncomputable def betasLinear (beta_1 beta_T : ℝ) (T i : ℕ) : ℝ :=
  linspaceVal beta_1 beta_T T i

/-- `betas[i]` in mode `"quad"`:
`torch.linspace (beta_1 ** 0.5) (beta_T ** 0.5) num_train_timesteps ** 2`. -/
noncomputable def betasQuad (beta_1 beta_T : ℝ) (T i : ℕ) : ℝ :=
  (linspaceVal (Real.sqrt beta_1) (Real.sqrt beta_T) T i) ^ 2

/-- `torch.cumprod l (dim := 0)`: entry `i` is the product of the first
`i + 1` entries of `l`. -/
noncomputable def cumprod (l : List ℝ) : List ℝ :=
  (List.range l.length).map (fun i => ∏ j ∈ Finset.range (i + 1), l.getD j 0)

/-- The scheduler object: `num_train_timesteps`, the `timesteps` buffer
`np.arange(0, T)[::-1]`, and the registered buffers `betas`, `alphas`,
`alphas_cumprod`. -/
structure BaseScheduler where
  num_train_timesteps : ℕ
  timesteps : List ℕ
  betas : List ℝ
  alphas : List ℝ
  alphas_cumprod : List ℝ

/-- Build the scheduler from a per-index beta function (the tail of
`BaseScheduler.__init__` after the mode dispatch): `alphas = 1 - betas`,
`alphas_cumprod = torch.cumprod alphas`. -/
noncomputable def mkSchedulerWith (T : ℕ) (betafn : ℕ → ℝ) : BaseScheduler :=
  let betas := (List.range T).map betafn
  let alphas := betas.map (fun b => 1 - b)
  ⟨T, (List.range T).reverse, betas, alphas, cumprod alphas⟩

/-- Scheduler produced by `BaseScheduler(T, beta_1, beta_T, mode="linear")`. -/
noncomputable def mkLinear (T : ℕ) (beta_1 beta_T : ℝ) : BaseScheduler :=
  mkSchedulerWith T (betasLinear beta_1 beta_T T)

/-- Scheduler produced by `BaseScheduler(T, beta_1, beta_T, mode="quad")`. -/
noncomputable def mkQuad (T : ℕ) (beta_1 beta_T : ℝ) : BaseScheduler :=
  mkSchedulerWith T (betasQuad beta_1 beta_T T)

/-- `BaseScheduler.__init__` with the mode dispatch: unknown modes raise
`NotImplementedError(f"{mode} is not implemented.")`, modelled as
`Except.error`. -/
noncomputable def mkBaseScheduler (T : ℕ) (beta_1 beta_T : ℝ) (mode : String) :
    Except String BaseScheduler :=
  if mode = "linear" then Except.ok (mkLinear T beta_1 beta_T)
  else if mode = "quad" then Except.ok (mkQuad T beta_1 beta_T)
  else Except.error (mode ++ " is not implemented.")

/-- Value semantics of `extract input t x` for one gathered index:
`torch.gather input 0 t` on a 1-D buffer reads `input[t]`.  (The reshape to
`[len(t), 1, ..., 1]` is modelled by the shape calculus below.) -/
def extract (input : List ℝ) (t : ℕ) : ℝ :=
  input.getD t 0

section Tensors

variable {B ι : Type}

/-- `DiffusionModule.q_sample`:
`xt = alphas_prod_t.sqrt() * x0 + (1 - alphas_prod_t).sqrt() * noise` with
`alphas_prod_t = extract alphas_cumprod t x0`.  The noise tensor is an
explicit argument: the code uses the caller's tensor, or a fresh
standard-normal sample when the argument is `None`. -/
noncomputable def q_sample (s : BaseScheduler) (x0 : B → ι → ℝ) (t : B → ℕ)
    (noise : B → ι → ℝ) : B → ι → ℝ :=
  fun b p =>
    Real.sqrt (extract s.alphas_cumprod (t b)) * x0 b p +
      Real.sqrt (1 - extract s.alphas_cumprod (t b)) * noise b p

/-- `DiffusionModule.p_sample`: one reverse step.  `net` is the opaque noise
prediction network `self.network`; `noise` is the fresh `torch.randn_like xt`
sample; `nonzero_mask` is `(t != 0).float()`. -/
noncomputable def p_sample (s : BaseScheduler)
    (net : (B → ι → ℝ) → (B → ℕ) → B → ι → ℝ)
    (xt : B → ι → ℝ) (t : B → ℕ) (noise : B → ι → ℝ) : B → ι → ℝ :=
  fun b p =>
    let alphas_t := extract s.alphas (t b)
    let alphas_cumprod_t := extract s.alphas_cumprod (t b)
    let betas_t := extract s.betas (t b)
    let eps_factor := (1 - alphas_t) / Real.sqrt (1 - alphas_cumprod_t)
    let nonzero_mask : ℝ := if t b ≠ 0 then 1 else 0
    (1 / Real.sqrt alphas_t) * (xt b p - eps_factor * net xt t b p) +
      nonzero_mask * (Real.sqrt betas_t * noise b p)

/-- `DiffusionModule.p_sample_loop`: starting from the initial
standard-normal sample `init`, fold `p_sample` over
`reversed(range(num_train_timesteps))`; at step `t` the timestep tensor is
`torch.tensor([t])` (a constant over the batch) and `noises t` is that
step's fresh noise sample. -/
noncomputable def p_sample_loop (s : BaseScheduler)
    (net : (B → ι → ℝ) → (B → ℕ) → B → ι → ℝ)
    (init : B → ι → ℝ) (noises : ℕ → B → ι → ℝ) : B → ι → ℝ :=
  ((List.range s.num_train_timesteps).reverse).foldl
    (fun x tstep => p_sample s net x (fun _ => tstep) (noises tstep)) init

/-- Reference recursion for the reverse loop: `runSteps n x` performs the
denoising steps for timesteps `n - 1, n - 2, ..., 0` in that order. -/
noncomputable def runSteps (s : BaseScheduler)
    (net : (B → ι → ℝ) → (B → ℕ) → B → ι → ℝ)
    (noises : ℕ → B → ι → ℝ) : ℕ → (B → ι → ℝ) → B → ι → ℝ
  | 0, x => x
  | n + 1, x => runSteps s net noises n (p_sample s net x (fun _ => n) (noises n))

/-- `F.mse_loss pred target` with the default mean reduction: the mean of
the elementwise squared differences. -/
noncomputable def mse_loss [Fintype B] [Fintype ι] (pred target : B → ι → ℝ) : ℝ :=
  (∑ b, ∑ p, (pred b p - target b p) ^ 2) /
    ((Fintype.card B : ℝ) * (Fintype.card ι : ℝ))

/-- `DiffusionModule.compute_loss`: the sampled per-example timesteps `t`
(drawn by `torch.randint 0 T (size := (batch_size,))`) and the fresh noise
are explicit oracle arguments; the result is
`F.mse_loss (network (q_sample x0 t noise) t) noise`. -/
noncomputable def compute_loss [Fintype B] [Fintype ι] (s : BaseScheduler)
    (net : (B → ι → ℝ) → (B → ℕ) → B → ι → ℝ)
    (x0 : B → ι → ℝ) (t : B → ℕ) (noise : B → ι → ℝ) : ℝ :=
  mse_loss (net (q_sample s x0 t noise) t) noise

end Tensors

section Persistence

variable {Net : Type}

/-- `DiffusionModule`: the opaque network and the variance scheduler. -/
structure DiffusionModule (Net : Type) where
  network : Net
  var_scheduler : BaseScheduler

/-- The on-disk checkpoint written by `DiffusionModule.save`:
`{"hparams": {"network": ..., "var_scheduler": ...}, "state_dict": ...}`.
`torch.save` / `torch.load` are modelled as a faithful store/retrieve pair
(the spec delegates the serialization format to the host framework).  The
state dict holds the module's numeric state: the scheduler's registered
buffers and the network parameters (the latter opaque, carried as `Net`). -/
structure Checkpoint (Net : Type) where
  hparams_network : Net
  hparams_var_scheduler : BaseScheduler
  sd_betas : List ℝ
  sd_alphas : List ℝ
  sd_alphas_cumprod : List ℝ
  sd_network : Net

/-- `DiffusionModule.save`. -/
def DiffusionModule.save (m : DiffusionModule Net) : Checkpoint Net :=
  ⟨m.network, m.var_scheduler,
    m.var_scheduler.betas, m.var_scheduler.alphas, m.var_scheduler.alphas_cumprod,
    m.network⟩

/-- `DiffusionModule.load`: replace `network` and `var_scheduler` by the
checkpoint's hparams, then `load_state_dict` overwrites the registered
buffers and the network parameters with the stored state dict. -/
def DiffusionModule.load (_m0 : DiffusionModule Net) (c : Checkpoint Net) :
    DiffusionModule Net :=
  ⟨c.sd_network,
    ⟨c.hparams_var_scheduler.num_train_timesteps, c.hparams_var_scheduler.timesteps,
      c.sd_betas, c.sd_alphas, c.sd_alphas_cumprod⟩⟩

end Persistence

/-! ## Shape calculus (numpy/torch broadcasting) -/

/-- Broadcast one pair of aligned dimensions: equal sizes stay, a size of
`1` stretches to the other size, anything else is a shape error. -/
def broadcastDim (a b : ℕ) : Option ℕ :=
  if a = b then some a else if a = 1 then some b else if b = 1 then some a else none

/-- Broadcast two shapes given with their dimensions reversed (innermost
first); the shorter one is implicitly padded with leading `1`s. -/
def bcastRev : List ℕ → List ℕ → Option (List ℕ)
  | [], ys => some ys
  | x :: xs, [] => some (x :: xs)
  | x :: xs, y :: ys => do
      let d ← broadcastDim x y
      let rest ← bcastRev xs ys
      pure (d :: rest)

/-- Broadcast two shapes, aligning from the right. -/
def broadcastShape (s1 s2 : List ℕ) : Option (List ℕ) :=
  (bcastRev s1.reverse s2.reverse).map List.reverse

/-- Shape of `extract input t x`: `[t.shape[0]] + [1] * (len(x.shape) - 1)`. -/
def extractShape (tlen : ℕ) (xshape : List ℕ) : List ℕ :=
  tlen :: List.replicate (xshape.length - 1) 1

/-- Shape of the result of `q_sample`: both products of a gathered schedule
scalar with a data-shaped tensor, then their sum. -/
def qSampleShape (tlen : ℕ) (xshape noiseshape : List ℕ) : Option (List ℕ) := do
  let es := extractShape tlen xshape
  let s1 ← broadcastShape es xshape
  let s2 ← broadcastShape es noiseshape
  broadcastShape s1 s2

/-- Shape of the result of `p_sample` (the network output has `xt`'s shape,
the mask is `view`ed to `[len(t), 1, ..., 1]`, the noise is
`randn_like xt`). -/
def pSampleShape (tlen : ℕ) (xtshape : List ℕ) : Option (List ℕ) := do
  let es := extractShape tlen xtshape
  let s1 ← broadcastShape es xtshape
  let s2 ← broadcastShape xtshape s1
  let s3 ← broadcastShape es s2
  let s4 ← broadcastShape es xtshape
  let s5 ← broadcastShape es s4
  broadcastShape s3 s5

/-- Shape evolution of `p_sample_loop`: `n` reverse steps, each a
`p_sample` whose timestep tensor `torch.tensor([t])` has length 1. -/
def pSampleLoopShape : ℕ → List ℕ → Option (List ℕ)
  | 0, sh => some sh
  | n + 1, sh => (pSampleShape 1 sh).bind (pSampleLoopShape n)

end DDPM

/-! ## Buffer access lemmas -/

namespace DDPM

lemma extract_map_range (f : ℕ → ℝ) (T i : ℕ) (h : i < T) :
    extract ((List.range T).map f) i = f i := by
  simp [extract, List.getD, h]

lemma betas_mk (T : ℕ) (f : ℕ → ℝ) (i : ℕ) (h : i < T) :
    extract (mkSchedulerWith T f).betas i = f i := by
  simpa [mkSchedulerWith] using extract_map_range f T i h

lemma alphas_list_mk (T : ℕ) (f : ℕ → ℝ) :
    (mkSchedulerWith T f).alphas = (List.range T).map (fun j => 1 - f j) := by
  simp [mkSchedulerWith]

lemma alphas_mk (T : ℕ) (f : ℕ → ℝ) (i : ℕ) (h : i < T) :
    extract (mkSchedulerWith T f).alphas i = 1 - f i := by
  rw [alphas_list_mk]
  exact extract_map_range _ T i h

lemma alphas_cumprod_mk (T : ℕ) (f : ℕ → ℝ) (i : ℕ) (h : i < T) :
    extract (mkSchedulerWith T f).alphas_cumprod i =
      ∏ j ∈ Finset.range (i + 1), (1 - f j) := by
  have hlen : (mkSchedulerWith T f).alphas.length = T := by
    simp [mkSchedulerWith]
  have : (mkSchedulerWith T f).alphas_cumprod = cumprod (mkSchedulerWith T f).alphas := rfl
  rw [this, cumprod, hlen, extract_map_range _ T i h]
  refine Finset.prod_congr rfl ?_
  intro j hj
  have hj' : j < T := lt_of_lt_of_le (Finset.mem_range.mp hj) (Nat.succ_le_of_lt h)
  have := alphas_mk T f j hj'
  rw [extract] at this
  rw [this]

/-! ## Claim theorems -/

/-- C1: for every clean-data tensor `x0`, per-example timesteps `t` (a scalar
or length-1 timestep tensor broadcasts as a constant function) and noise
tensor (caller-supplied or freshly sampled), `q_sample` returns
`sqrt (alphas_cumprod[t]) * x0 + sqrt (1 - alphas_cumprod[t]) * noise`
entrywise, and with the noise fixed to zero it returns
`sqrt (alphas_cumprod[t]) * x0`. -/
theorem q_sample_forward_equation {B ι : Type} (s : BaseScheduler)
    (x0 noise : B → ι → ℝ) (t : B → ℕ) :
    (∀ b p, q_sample s x0 t noise b p =
        Real.sqrt (extract s.alphas_cumprod (t b)) * x0 b p +
          Real.sqrt (1 - extract s.alphas_cumprod (t b)) * noise b p) ∧
    (∀ b p, q_sample s x0 t (fun _ _ => 0) b p =
        Real.sqrt (extract s.alphas_cumprod (t b)) * x0 b p) := by
  constructor
  · intro b p
    rfl
  · intro b p
    simp [q_sample]

/-- C2: `p_sample` computes
`(1/sqrt alpha_t) * (xt - ((1-alpha_t)/sqrt (1-alphas_cumprod_t)) * eps_theta)
 + mask * sqrt beta_t * noise` with `eps_theta` the network prediction on
`(xt, t)` and `mask` zero exactly at `t = 0`; hence when every timestep entry
is `0` the output does not depend on the sampled noise. -/
theorem p_sample_posterior_equation {B ι : Type} (s : BaseScheduler)
    (net : (B → ι → ℝ) → (B → ℕ) → B → ι → ℝ)
    (xt noise : B → ι → ℝ) (t : B → ℕ) :
    (∀ b p, p_sample s net xt t noise b p =
        (1 / Real.sqrt (extract s.alphas (t b))) *
          (xt b p -
            ((1 - extract s.alphas (t b)) /
              Real.sqrt (1 - extract s.alphas_cumprod (t b))) * net xt t b p) +
          (if t b = 0 then 0 else 1) *
            (Real.sqrt (extract s.betas (t b)) * noise b p)) ∧
    (∀ noise2 : B → ι → ℝ, (∀ b, t b = 0) →
        p_sample s net xt t noise = p_sample s net xt t noise2) := by
  constructor
  · intro b p
    by_cases h : t b = 0 <;> simp [p_sample, h]
  · intro noise2 h
    funext b p
    simp [p_sample, h b]

/-- C6: `BaseScheduler` construction fails (raising the
not-implemented error) exactly when the mode is neither `"linear"` nor
`"quad"`; in that case no scheduler value is produced, and for an
unsupported mode the error carries the not-implemented message. -/
theorem mkBaseScheduler_error_iff (T : ℕ) (beta_1 beta_T : ℝ) (mode : String) :
    ((∃ e, mkBaseScheduler T beta_1 beta_T mode = Except.error e) ↔
      (mode ≠ "linear" ∧ mode ≠ "quad")) ∧
    (mode ≠ "linear" → mode ≠ "quad" →
      mkBaseScheduler T beta_1 beta_T mode =
        Except.error (mode ++ " is not implemented.")) ∧
    (∀ s, mkBaseScheduler T beta_1 beta_T mode = Except.ok s →
      mode = "linear" ∨ mode = "quad") := by
  by_cases h1 : mode = "linear" <;> by_cases h2 : mode = "quad" <;>
    simp [mkBaseScheduler, h1, h2]

/-- C8: `load` after `save` restores a module whose scheduler buffers
(`betas`, `alphas`, `alphas_cumprod`) are identical to the saved module's
and whose network yields an identical output on any fixed input (under any
evaluation of the opaque network value), for any pre-existing module state
`m0` on which `load` is called. -/
theorem save_load_roundtrip {Net X Y : Type} (m0 m : DiffusionModule Net)
    (evalNet : Net → X → Y) (x : X) :
    (m0.load m.save).var_scheduler.betas = m.var_scheduler.betas ∧
    (m0.load m.save).var_scheduler.alphas = m.var_scheduler.alphas ∧
    (m0.load m.save).var_scheduler.alphas_cumprod = m.var_scheduler.alphas_cumprod ∧
    (m0.load m.save).var_scheduler.num_train_timesteps =
      m.var_scheduler.num_train_timesteps ∧
    (m0.load m.save).var_scheduler.timesteps = m.var_scheduler.timesteps ∧
    evalNet (m0.load m.save).network x = evalNet m.network x :=
  ⟨rfl, rfl, rfl, rfl, rfl, rfl⟩

/-- C10: any scheduler produced by construction has
`timesteps = np.arange(0, T)[::-1]`: the descending sequence
`[T-1, T-2, ..., 0]`, of length `T`, strictly decreasing, with the entry at
position `i` equal to `T - 1 - i`.  (In this functional model no operation
returns a modified scheduler, so the buffers registered at construction are
never changed afterwards.) -/
theorem timesteps_descending (T : ℕ) (beta_1 beta_T : ℝ) (mode : String)
    (s : BaseScheduler)
    (h : mkBaseScheduler T beta_1 beta_T mode = Except.ok s) :
    s.timesteps = (List.range T).reverse ∧
    s.timesteps.length = T ∧
    List.Pairwise (fun a b => b < a) s.timesteps ∧
    (∀ i, i < T → s.timesteps.getD i 0 = T - 1 - i) := by
  have hts : s.timesteps = (List.range T).reverse := by
    by_cases h1 : mode = "linear" <;> by_cases h2 : mode = "quad" <;>
      simp [mkBaseScheduler, h1, h2] at h <;>
      simp [← h, mkLinear, mkQuad, mkSchedulerWith]
  refine ⟨hts, ?_, ?_, ?_⟩
  · simp [hts]
  · rw [hts, List.pairwise_reverse]
    exact List.pairwise_lt_range T
  · intro i hi
    rw [hts]
    have hl : i < ((List.range T).reverse).length := by simpa using hi
    rw [List.getD_eq_getElem _ _ hl, List.getElem_reverse]
    simp

/-- C10 witness: the scheduler constructed with `T = 3` in mode `"linear"`
has timesteps `[2, 1, 0]` with the stated properties. -/
theorem timesteps_descending_witness :
    (mkLinear 3 (1/10000) (1/50)).timesteps = (List.range 3).reverse ∧
    (mkLinear 3 (1/10000) (1/50)).timesteps.length = 3 ∧
    List.Pairwise (fun a b => b < a) (mkLinear 3 (1/10000) (1/50)).timesteps ∧
    (∀ i, i < 3 → (mkLinear 3 (1/10000) (1/50)).timesteps.getD i 0 = 3 - 1 - i) :=
  timesteps_descending 3 (1/10000) (1/50) "linear" (mkLinear 3 (1/10000) (1/50))
    (by simp [mkBaseScheduler])

/-- C4: construction builds, for every `i < T`, `betas[i]` by linear
interpolation from `beta_1` to `beta_T` in mode `"linear"`, and in mode
`"quad"` by linear interpolation of the square roots then squaring;
`alphas = 1 - betas` entrywise and `alphas_cumprod[i]` is the running
product of the `alphas`; the supported modes dispatch to these builders; and
for `T = 1000`, `beta_1 = 1e-4`, `beta_T = 0.02` in mode `"linear"`,
`betas[0] = 1e-4` and `betas[999] = 0.02`. -/
theorem scheduler_construction (T : ℕ) (beta_1 beta_T : ℝ) :
    (mkBaseScheduler T beta_1 beta_T "linear" = Except.ok (mkLinear T beta_1 beta_T)) ∧
    (mkBaseScheduler T beta_1 beta_T "quad" = Except.ok (mkQuad T beta_1 beta_T)) ∧
    (∀ i, i < T → extract (mkLinear T beta_1 beta_T).betas i =
        beta_1 + i * (beta_T - beta_1) / ((T - 1 : ℕ) : ℝ)) ∧
    (∀ i, i < T → extract (mkQuad T beta_1 beta_T).betas i =
        (Real.sqrt beta_1 +
          i * (Real.sqrt beta_T - Real.sqrt beta_1) / ((T - 1 : ℕ) : ℝ)) ^ 2) ∧
    (∀ i, i < T → extract (mkLinear T beta_1 beta_T).alphas i =
        1 - extract (mkLinear T beta_1 beta_T).betas i) ∧
    (∀ i, i < T → extract (mkQuad T beta_1 beta_T).alphas i =
        1 - extract (mkQuad T beta_1 beta_T).betas i) ∧
    (∀ i, i < T → extract (mkLinear T beta_1 beta_T).alphas_cumprod i =
        ∏ j ∈ Finset.range (i + 1), extract (mkLinear T beta_1 beta_T).alphas j) ∧
    (∀ i, i < T → extract (mkQuad T beta_1 beta_T).alphas_cumprod i =
        ∏ j ∈ Finset.range (i + 1), extract (mkQuad T beta_1 beta_T).alphas j) ∧
    (extract (mkLinear 1000 (1/10000) (1/50)).betas 0 = 1/10000) ∧
    (extract (mkLinear 1000 (1/10000) (1/50)).betas 999 = 1/50) := by
  have hbl : ∀ i, i < T → extract (mkLinear T beta_1 beta_T).betas i =
      beta_1 + i * (beta_T - beta_1) / ((T - 1 : ℕ) : ℝ) := by
    intro i hi
    rw [mkLinear, betas_mk T _ i hi, betasLinear, linspaceVal]
  have hbq : ∀ i, i < T → extract (mkQuad T beta_1 beta_T).betas i =
      (Real.sqrt beta_1 +
        i * (Real.sqrt beta_T - Real.sqrt beta_1) / ((T - 1 : ℕ) : ℝ)) ^ 2 := by
    intro i hi
    rw [mkQuad, betas_mk T _ i hi, betasQuad, linspaceVal]
  have hprod : ∀ (f : ℕ → ℝ) i, i < T →
      extract (mkSchedulerWith T f).alphas_cumprod i =
        ∏ j ∈ Finset.range (i + 1), extract (mkSchedulerWith T f).alphas j := by
    intro f i hi
    rw [alphas_cumprod_mk T f i hi]
    refine Finset.prod_congr rfl ?_
    intro j hj
    have hj' : j < T := lt_of_lt_of_le (Finset.mem_range.mp hj) (Nat.succ_le_of_lt hi)
    rw [alphas_mk T f j hj']
  refine ⟨by simp [mkBaseScheduler], by simp [mkBaseScheduler], hbl, hbq,
    ?_, ?_, hprod _, hprod _, ?_, ?_⟩
  · intro i hi
    rw [mkLinear, alphas_mk T _ i hi, betas_mk T _ i hi]
  · intro i hi
    rw [mkQuad, alphas_mk T _ i hi, betas_mk T _ i hi]
  · rw [mkLinear, betas_mk 1000 _ 0 (by norm_num)]
    norm_num [betasLinear, linspaceVal]
  · rw [mkLinear, betas_mk 1000 _ 999 (by norm_num)]
    norm_num [betasLinear, linspaceVal]

/-! ## Broadcast lemmas -/

lemma broadcastDim_self (a : ℕ) : broadcastDim a a = some a := by
  simp [broadcastDim]

lemma broadcastDim_one_left (b : ℕ) : broadcastDim 1 b = some b := by
  by_cases h : (1 : ℕ) = b
  · subst h
    simp [broadcastDim]
  · simp [broadcastDim, h]

lemma bcastRev_self : ∀ l : List ℕ, bcastRev l l = some l := by
  intro l
  induction l with
  | nil => rfl
  | cons x xs ih => simp [bcastRev, broadcastDim_self, ih]

lemma bcastRev_replicate_one (rest1 rest2 out : List ℕ)
    (h : bcastRev rest1 rest2 = some out) :
    ∀ ys : List ℕ,
      bcastRev (List.replicate ys.length 1 ++ rest1) (ys ++ rest2) = some (ys ++ out) := by
  intro ys
  induction ys with
  | nil => simpa using h
  | cons y ys ih =>
      have hd : broadcastDim 1 y = some y := broadcastDim_one_left y
      simp [List.replicate_succ, bcastRev, hd, ih]

lemma broadcastShape_self (l : List ℕ) : broadcastShape l l = some l := by
  simp [broadcastShape, bcastRev_self]

lemma broadcastShape_extractShape (B tlen : ℕ) (rest : List ℕ)
    (h : tlen = B ∨ tlen = 1) :
    broadcastShape (extractShape tlen (B :: rest)) (B :: rest) = some (B :: rest) := by
  have hd : broadcastDim tlen B = some B := by
    rcases h with h | h
    · rw [h]; exact broadcastDim_self B
    · rw [h]; exact broadcastDim_one_left B
  have hone : bcastRev [tlen] [B] = some [B] := by
    simp [bcastRev, hd]
  have hmain := bcastRev_replicate_one [tlen] [B] [B] hone rest.reverse
  have hsh : extractShape tlen (B :: rest) = tlen :: List.replicate rest.length 1 := by
    simp [extractShape]
  rw [broadcastShape, hsh]
  have hrev1 : (tlen :: List.replicate rest.length 1).reverse =
      List.replicate rest.reverse.length 1 ++ [tlen] := by
    simp [List.reverse_cons]
  have hrev2 : (B :: rest).reverse = rest.reverse ++ [B] := by
    simp [List.reverse_cons]
  rw [hrev1, hrev2, hmain]
  simp

lemma qSampleShape_preserved (B tlen : ℕ) (rest : List ℕ)
    (h : tlen = B ∨ tlen = 1) :
    qSampleShape tlen (B :: rest) (B :: rest) = some (B :: rest) := by
  have he := broadcastShape_extractShape B tlen rest h
  simp [qSampleShape, he, broadcastShape_self]

lemma pSampleShape_preserved (B tlen : ℕ) (rest : List ℕ)
    (h : tlen = B ∨ tlen = 1) :
    pSampleShape tlen (B :: rest) = some (B :: rest) := by
  have he := broadcastShape_extractShape B tlen rest h
  simp [pSampleShape, he, broadcastShape_self]

lemma pSampleLoopShape_preserved (n B : ℕ) (rest : List ℕ) :
    pSampleLoopShape n (B :: rest) = some (B :: rest) := by
  induction n with
  | zero => rfl
  | succ n ih =>
      rw [pSampleLoopShape, pSampleShape_preserved B 1 rest (Or.inr rfl)]
      simpa using ih

/-- C9: when the timestep tensor's length equals the data tensor's leading
batch dimension or is one, the gathered schedule scalars (reshaped by
`extract` to `[len(t), 1, ..., 1]`) broadcast against the data without
enlarging it: the result shape of `q_sample` equals `x0`'s shape and the
result shape of `p_sample` equals `xt`'s shape. -/
theorem extract_broadcast_shapes (B tlen : ℕ) (rest : List ℕ)
    (h : tlen = B ∨ tlen = 1) :
    extractShape tlen (B :: rest) = tlen :: List.replicate rest.length 1 ∧
    qSampleShape tlen (B :: rest) (B :: rest) = some (B :: rest) ∧
    pSampleShape tlen (B :: rest) = some (B :: rest) := by
  refine ⟨by simp [extractShape], qSampleShape_preserved B tlen rest h,
    pSampleShape_preserved B tlen rest h⟩

/-- C9 witness: a batch of 3 two-dimensional points with a per-example
timestep tensor of length 3. -/
theorem extract_broadcast_shapes_witness :
    extractShape 3 (3 :: [2]) = 3 :: List.replicate [2].length 1 ∧
    qSampleShape 3 (3 :: [2]) (3 :: [2]) = some (3 :: [2]) ∧
    pSampleShape 3 (3 :: [2]) = some (3 :: [2]) :=
  extract_broadcast_shapes 3 3 [2] (Or.inl rfl)

lemma foldl_reverse_range_runSteps {B ι : Type} (s : BaseScheduler)
    (net : (B → ι → ℝ) → (B → ℕ) → B → ι → ℝ) (noises : ℕ → B → ι → ℝ) :
    ∀ (n : ℕ) (x : B → ι → ℝ),
      ((List.range n).reverse).foldl
        (fun y tstep => p_sample s net y (fun _ => tstep) (noises tstep)) x =
        runSteps s net noises n x := by
  intro n
  induction n with
  | zero => intro x; rfl
  | succ n ih =>
      intro x
      rw [List.range_succ, List.reverse_append]
      simpa [runSteps] using ih (p_sample s net x (fun _ => n) (noises n))

/-- C3: `p_sample_loop` starts from the supplied standard-normal sample and
applies `p_sample` exactly `num_train_timesteps` times, visiting the
timesteps `T-1, T-2, ..., 0` (the reversed range: length `T`, strictly
descending, no early exit), and returns the value after the final `t = 0`
step; at the shape level `T` such steps over shape `(N, 2)` return shape
`(N, 2)`. -/
theorem p_sample_loop_descends {B ι : Type} (s : BaseScheduler)
    (net : (B → ι → ℝ) → (B → ℕ) → B → ι → ℝ)
    (init : B → ι → ℝ) (noises : ℕ → B → ι → ℝ) :
    p_sample_loop s net init noises =
      runSteps s net noises s.num_train_timesteps init ∧
    (List.range s.num_train_timesteps).reverse.length = s.num_train_timesteps ∧
    List.Pairwise (fun a b => b < a) (List.range s.num_train_timesteps).reverse ∧
    (∀ N : ℕ, pSampleLoopShape s.num_train_timesteps [N, 2] = some [N, 2]) := by
  refine ⟨foldl_reverse_range_runSteps s net noises s.num_train_timesteps init,
    by simp, ?_, ?_⟩
  · rw [List.pairwise_reverse]
    exact List.pairwise_lt_range s.num_train_timesteps
  · intro N
    exact pSampleLoopShape_preserved s.num_train_timesteps N [2]

/-- C7: for a batch of clean data `x0` with one uniformly sampled timestep
per batch element (each in `[0, T)`) and fresh standard-normal noise,
`compute_loss` forms `xt` by the forward corruption equation with that
noise, queries the network on `(xt, t)`, and returns the mean of the
squared entrywise differences between the predicted and the true noise. -/
theorem compute_loss_is_mse {B ι : Type} [Fintype B] [Fintype ι]
    (s : BaseScheduler) (net : (B → ι → ℝ) → (B → ℕ) → B → ι → ℝ)
    (x0 noise : B → ι → ℝ) (t : B → ℕ)
    (_h : ∀ b, t b < s.num_train_timesteps) :
    compute_loss s net x0 t noise =
      (∑ b, ∑ p,
        (net (fun b2 p2 =>
            Real.sqrt (extract s.alphas_cumprod (t b2)) * x0 b2 p2 +
              Real.sqrt (1 - extract s.alphas_cumprod (t b2)) * noise b2 p2)
          t b p - noise b p) ^ 2) /
        ((Fintype.card B : ℝ) * (Fintype.card ι : ℝ)) := by
  rfl

/-- Concrete instances for witnesses: a batch of one scalar sample. -/
def exNet : (Fin 1 → Fin 1 → ℝ) → (Fin 1 → ℕ) → Fin 1 → Fin 1 → ℝ :=
  fun _ _ _ _ => 0

/-- Constant-one data tensor on a batch of one scalar sample. -/
def exOne : Fin 1 → Fin 1 → ℝ :=
  fun _ _ => 1

/-- Constant-zero tensor on a batch of one scalar sample. -/
def exZero : Fin 1 → Fin 1 → ℝ :=
  fun _ _ => 0

/-- Constant timestep 2 for the batch of one. -/
def exT : Fin 1 → ℕ :=
  fun _ => 2

/-- C7 witness: a batch of one scalar sample with `T = 3`, the timestep
fixed to `2 < 3` and a constant-zero network. -/
theorem compute_loss_is_mse_witness :
    compute_loss (mkLinear 3 (1/10000) (1/50)) exNet exOne exT exZero =
      (∑ b, ∑ p,
        (exNet (fun b2 p2 =>
            Real.sqrt (extract (mkLinear 3 (1/10000) (1/50)).alphas_cumprod (exT b2)) *
                exOne b2 p2 +
              Real.sqrt
                  (1 - extract (mkLinear 3 (1/10000) (1/50)).alphas_cumprod (exT b2)) *
                exZero b2 p2)
          exT b p - exZero b p) ^ 2) /
        ((Fintype.card (Fin 1) : ℝ) * (Fintype.card (Fin 1) : ℝ)) :=
  compute_loss_is_mse (mkLinear 3 (1/10000) (1/50)) exNet exOne exZero exT
    (fun _ => by norm_num [exT, mkLinear, mkSchedulerWith])

/-! ## Schedule monotonicity and range -/

lemma linspaceVal_mono (a b : ℝ) (T i : ℕ) (hab : a ≤ b) :
    linspaceVal a b T i ≤ linspaceVal a b T (i + 1) := by
  unfold linspaceVal
  rw [mul_div_assoc, mul_div_assoc]
  have hd : 0 ≤ (b - a) / ((T - 1 : ℕ) : ℝ) :=
    div_nonneg (sub_nonneg.mpr hab) (Nat.cast_nonneg _)
  have hi : (i : ℝ) ≤ ((i + 1 : ℕ) : ℝ) := by
    push_cast
    linarith
  have := mul_le_mul_of_nonneg_right hi hd
  linarith

lemma linspaceVal_bounds (a b : ℝ) (T i : ℕ) (hab : a ≤ b) (hi : i < T) :
    a ≤ linspaceVal a b T i ∧ linspaceVal a b T i ≤ b := by
  unfold linspaceVal
  rw [mul_div_assoc]
  have hd : 0 ≤ (b - a) / ((T - 1 : ℕ) : ℝ) :=
    div_nonneg (sub_nonneg.mpr hab) (Nat.cast_nonneg _)
  constructor
  · have : 0 ≤ (i : ℝ) * ((b - a) / ((T - 1 : ℕ) : ℝ)) :=
      mul_nonneg (Nat.cast_nonneg _) hd
    linarith
  · by_cases hT : T - 1 = 0
    · have hi0 : i = 0 := by omega
      subst hi0
      simp
      linarith
    · have hc : (0 : ℝ) < ((T - 1 : ℕ) : ℝ) := by
        exact_mod_cast Nat.pos_of_ne_zero hT
      have hile : (i : ℝ) ≤ ((T - 1 : ℕ) : ℝ) := by
        exact_mod_cast Nat.le_sub_one_of_lt hi
      have hone : (i : ℝ) * ((b - a) / ((T - 1 : ℕ) : ℝ)) ≤
          ((T - 1 : ℕ) : ℝ) * ((b - a) / ((T - 1 : ℕ) : ℝ)) :=
        mul_le_mul_of_nonneg_right hile hd
      have htwo : ((T - 1 : ℕ) : ℝ) * ((b - a) / ((T - 1 : ℕ) : ℝ)) = b - a := by
        field_simp
      linarith

lemma betasQuad_mono (beta_1 beta_T : ℝ) (T i : ℕ) (hab : beta_1 ≤ beta_T)
    (hi : i + 1 < T) :
    betasQuad beta_1 beta_T T i ≤ betasQuad beta_1 beta_T T (i + 1) := by
  have hs : Real.sqrt beta_1 ≤ Real.sqrt beta_T := Real.sqrt_le_sqrt hab
  have hb := linspaceVal_bounds (Real.sqrt beta_1) (Real.sqrt beta_T) T i hs (by omega)
  have h0 : 0 ≤ linspaceVal (Real.sqrt beta_1) (Real.sqrt beta_T) T i :=
    (Real.sqrt_nonneg _).trans hb.1
  exact pow_le_pow_left₀ h0 (linspaceVal_mono _ _ T i hs) 2

lemma betasQuad_bounds (beta_1 beta_T : ℝ) (T i : ℕ) (h0 : 0 ≤ beta_1)
    (hab : beta_1 ≤ beta_T) (hi : i < T) :
    beta_1 ≤ betasQuad beta_1 beta_T T i ∧ betasQuad beta_1 beta_T T i ≤ beta_T := by
  have hs : Real.sqrt beta_1 ≤ Real.sqrt beta_T := Real.sqrt_le_sqrt hab
  have hb := linspaceVal_bounds (Real.sqrt beta_1) (Real.sqrt beta_T) T i hs hi
  have hc0 : 0 ≤ linspaceVal (Real.sqrt beta_1) (Real.sqrt beta_T) T i :=
    (Real.sqrt_nonneg _).trans hb.1
  constructor
  · calc beta_1 = Real.sqrt beta_1 ^ 2 := (Real.sq_sqrt h0).symm
      _ ≤ linspaceVal (Real.sqrt beta_1) (Real.sqrt beta_T) T i ^ 2 :=
          pow_le_pow_left₀ (Real.sqrt_nonneg _) hb.1 2
  · calc betasQuad beta_1 beta_T T i
        ≤ Real.sqrt beta_T ^ 2 := pow_le_pow_left₀ hc0 hb.2 2
      _ = beta_T := Real.sq_sqrt (h0.trans hab)

lemma alphas_cumprod_pos_le_one (T : ℕ) (f : ℕ → ℝ)
    (hf : ∀ j, j < T → 0 < 1 - f j ∧ 1 - f j < 1) :
    ∀ i, i < T → 0 < extract (mkSchedulerWith T f).alphas_cumprod i ∧
      extract (mkSchedulerWith T f).alphas_cumprod i ≤ 1 := by
  intro i hi
  rw [alphas_cumprod_mk T f i hi]
  constructor
  · refine Finset.prod_pos ?_
    intro j hj
    have hj' : j < T := by
      have := Finset.mem_range.mp hj
      omega
    exact (hf j hj').1
  · refine Finset.prod_le_one ?_ ?_ <;> intro j hj <;>
      have hj' : j < T := by
        have := Finset.mem_range.mp hj
        omega
    · exact (hf j hj').1.le
    · exact (hf j hj').2.le

lemma alphas_cumprod_strict_anti (T : ℕ) (f : ℕ → ℝ)
    (hf : ∀ j, j < T → 0 < 1 - f j ∧ 1 - f j < 1) :
    ∀ i, i + 1 < T → extract (mkSchedulerWith T f).alphas_cumprod (i + 1) <
      extract (mkSchedulerWith T f).alphas_cumprod i := by
  intro i hi
  rw [alphas_cumprod_mk T f (i + 1) hi, alphas_cumprod_mk T f i (by omega),
    Finset.prod_range_succ]
  have hpos : 0 < ∏ j ∈ Finset.range (i + 1), (1 - f j) := by
    refine Finset.prod_pos ?_
    intro j hj
    have hj' : j < T := by
      have := Finset.mem_range.mp hj
      omega
    exact (hf j hj').1
  exact mul_lt_of_lt_one_right hpos (hf (i + 1) hi).2

/-- C5 counterexample: with `T = 1`, `beta_1 = 2 < 3 = beta_T` in mode
`"linear"` the code puts `betas = [2]`, so `alphas_cumprod = [-1]`, which
lies outside `(0, 1]`: the claim's conclusion fails though `beta_1 < beta_T`
holds. -/
theorem schedule_range_counterexample :
    ((2 : ℝ) < 3) ∧
    extract (mkLinear 1 2 3).alphas_cumprod 0 = -1 ∧
    ¬ (0 < extract (mkLinear 1 2 3).alphas_cumprod 0 ∧
        extract (mkLinear 1 2 3).alphas_cumprod 0 ≤ 1) := by
  have hval : extract (mkLinear 1 2 3).alphas_cumprod 0 = -1 := by
    rw [mkLinear, alphas_cumprod_mk 1 _ 0 (by norm_num)]
    norm_num [betasLinear, linspaceVal]
  refine ⟨by norm_num, hval, ?_⟩
  rw [hval]
  norm_num

/-- C5 (amended): for every `T` and boundary values with
`beta_1 < beta_T`, under modes `"linear"` and `"quad"` the `betas` sequence
is monotonically non-decreasing; when additionally `0 < beta_1` and
`beta_T < 1` (as in the example `beta_1 = 1e-4`, `beta_T = 0.02`),
`alphas_cumprod` lies in `(0, 1]` and is strictly decreasing (hence
monotonically non-increasing). -/
theorem schedule_monotone_bounded (T : ℕ) (beta_1 beta_T : ℝ) (s : BaseScheduler)
    (h1 : beta_1 < beta_T)
    (hs : s = mkLinear T beta_1 beta_T ∨ s = mkQuad T beta_1 beta_T) :
    (∀ i, i + 1 < T → extract s.betas i ≤ extract s.betas (i + 1)) ∧
    (0 < beta_1 → beta_T < 1 →
      (∀ i, i < T → 0 < extract s.alphas_cumprod i ∧
        extract s.alphas_cumprod i ≤ 1) ∧
      (∀ i, i + 1 < T → extract s.alphas_cumprod (i + 1) <
        extract s.alphas_cumprod i)) := by
  rcases hs with rfl | rfl
  · constructor
    · intro i hi
      rw [mkLinear, betas_mk T _ i (by omega), betas_mk T _ (i + 1) hi]
      exact linspaceVal_mono beta_1 beta_T T i h1.le
    · intro h0 h2
      have hf : ∀ j, j < T → 0 < 1 - betasLinear beta_1 beta_T T j ∧
          1 - betasLinear beta_1 beta_T T j < 1 := by
        intro j hj
        have hb := linspaceVal_bounds beta_1 beta_T T j h1.le hj
        rw [betasLinear]
        constructor <;> [linarith [hb.2]; linarith [hb.1]]
      exact ⟨alphas_cumprod_pos_le_one T _ hf, alphas_cumprod_strict_anti T _ hf⟩
  · constructor
    · intro i hi
      rw [mkQuad, betas_mk T _ i (by omega), betas_mk T _ (i + 1) hi]
      exact betasQuad_mono beta_1 beta_T T i h1.le hi
    · intro h0 h2
      have hf : ∀ j, j < T → 0 < 1 - betasQuad beta_1 beta_T T j ∧
          1 - betasQuad beta_1 beta_T T j < 1 := by
        intro j hj
        have hb := betasQuad_bounds beta_1 beta_T T j h0.le h1.le hj
        constructor <;> [linarith [hb.2]; linarith [hb.1]]
      exact ⟨alphas_cumprod_pos_le_one T _ hf, alphas_cumprod_strict_anti T _ hf⟩

/-- C5 witness: the amended statement instantiated at `T = 2`,
`beta_1 = 1/4`, `beta_T = 1/2`, mode `"linear"`. -/
theorem schedule_monotone_bounded_witness :
    (∀ i, i + 1 < 2 → extract (mkLinear 2 (1/4) (1/2)).betas i ≤
      extract (mkLinear 2 (1/4) (1/2)).betas (i + 1)) ∧
    ((0 : ℝ) < 1/4 → (1/2 : ℝ) < 1 →
      (∀ i, i < 2 → 0 < extract (mkLinear 2 (1/4) (1/2)).alphas_cumprod i ∧
        extract (mkLinear 2 (1/4) (1/2)).alphas_cumprod i ≤ 1) ∧
      (∀ i, i + 1 < 2 → extract (mkLinear 2 (1/4) (1/2)).alphas_cumprod (i + 1) <
        extract (mkLinear 2 (1/4) (1/2)).alphas_cumprod i)) :=
  schedule_monotone_bounded 2 (1/4) (1/2) (mkLinear 2 (1/4) (1/2))
    (by norm_num) (Or.inl rfl)

end DDPM

namespace DDPM

/-- C2 witness: with all timesteps zero the reverse step ignores the noise
argument (batch of one scalar sample, `T = 3`). -/
theorem p_sample_posterior_equation_witness :
    p_sample (mkLinear 3 (1/10000) (1/50)) exNet exOne (fun _ => 0) exZero =
      p_sample (mkLinear 3 (1/10000) (1/50)) exNet exOne (fun _ => 0) exOne :=
  (p_sample_posterior_equation (mkLinear 3 (1/10000) (1/50)) exNet exOne exZero
    (fun _ => 0)).2 exOne (fun _ => rfl)

/-- C4 witness: the linear-mode interpolation formula evaluated at
`T = 2`, `beta_1 = 1/4`, `beta_T = 1/2`, `i = 0`. -/
theorem scheduler_construction_witness :
    extract (mkLinear 2 (1/4) (1/2)).betas 0 =
      1/4 + ((0 : ℕ) : ℝ) * ((1/2 : ℝ) - 1/4) / ((2 - 1 : ℕ) : ℝ) :=
  (scheduler_construction 2 (1/4) (1/2)).2.2.1 0 (by norm_num)

/-- C6 witness: mode `"cosine"` is rejected with the not-implemented
message. -/
theorem mkBaseScheduler_error_iff_witness :
    mkBaseScheduler 10 (1/10000) (1/50) "cosine" =
      Except.error ("cosine" ++ " is not implemented.") :=
  (mkBaseScheduler_error_iff 10 (1/10000) (1/50) "cosine").2.1
    (by decide) (by decide)

end DDPM
